import Mathlib

/-!
Verification of the forkable-menu service (src/convex/forkable.ts) against its
specification.  The TypeScript source is shallowly embedded: the Convex table
`forkable_sessions` becomes a list of records in creation order (a record's
position plays the role of its `_id`), timestamps are integers (epoch
milliseconds), and each effectful step (network fetch, login response, the
`Intl` timezone formatter, JS `Date` string parsing) is passed in explicitly
as data or as an oracle function.
-/

namespace Forkable

/-- One row of the `forkable_sessions` table (src/unnamed schema:
`email`, `cookie`, `expiresAt`, `createdAt`, indexed `by_email`). -/
structure SessionRecord where
  email : String
  cookie : String
  expiresAt : Int
  createdAt : Int
deriving DecidableEq

/-- Model of `getCachedSession` (src/convex/forkable.ts, lines 60-80): query the table
with index `by_email` equal to `email`, filter `expiresAt > now`
(`q.gt(q.field("expiresAt"), now)`), and take `.first()` — the first matching
row in creation order. -/
def getCachedSession (store : List SessionRecord) (email : String) (now : Int) :
    Option SessionRecord :=
  store.find? (fun r => r.email == email && decide (now < r.expiresAt))

/-- Model of `storeCachedSession` (src/convex/forkable.ts, lines 82-110): look up the
first existing row for `email` (no expiry filter), delete it if present, then
insert a fresh row with `createdAt = Date.now()`.  Delete-first-then-insert is
exactly `List.eraseP` followed by an append at the end (newest creation
time). -/
def storeCachedSession (store : List SessionRecord) (email cookie : String)
    (expiresAt now : Int) : List SessionRecord :=
  (store.eraseP (fun r => r.email == email)) ++ [⟨email, cookie, expiresAt, now⟩]

/-- Store invariant: at most one row per account identifier. -/
def AtMostOnePerAccount (store : List SessionRecord) : Prop :=
  ∀ email : String, store.countP (fun r => r.email == email) ≤ 1

/-- The cache operations visible to the orchestrator: `get` reads, `put`
replaces. -/
inductive CacheOp where
  | read (email : String) (now : Int)
  | write (email cookie : String) (expiresAt now : Int)

/-- Effect of one cache operation on the store: `get` leaves the store
unchanged, `put` is `storeCachedSession`. -/
def applyCacheOp (store : List SessionRecord) : CacheOp → List SessionRecord
  | .read _ _ => store
  | .write e c x n => storeCachedSession store e c x n

/-- Effect of a sequence of cache operations, applied left to right. -/
def applyCacheOps (store : List SessionRecord) (ops : List CacheOp) :
    List SessionRecord :=
  ops.foldl applyCacheOp store

theorem eraseP_no_match {α : Type} (p : α → Bool) (l : List α)
    (h : l.countP p ≤ 1) : ∀ x ∈ l.eraseP p, p x = false := by
  induction l with
  | nil => simp
  | cons a l ih =>
    intro x hx
    by_cases hpa : p a
    · rw [List.eraseP_cons_of_pos hpa] at hx
      have hz : l.countP p = 0 := by
        rw [List.countP_cons, if_pos hpa] at h
        omega
      have := List.countP_eq_zero.mp hz x hx
      simpa using this
    · rw [List.eraseP_cons_of_neg (by simpa using hpa)] at hx
      rcases List.mem_cons.mp hx with rfl | hx
      · simpa using hpa
      · apply ih _ x hx
        rw [List.countP_cons, if_neg hpa] at h
        omega

theorem find?_append_of_none {α : Type} (p : α → Bool) (l₁ l₂ : List α)
    (h : l₁.find? p = none) : (l₁ ++ l₂).find? p = l₂.find? p := by
  induction l₁ with
  | nil => simp
  | cons a l ih =>
    by_cases hpa : p a
    · simp [List.find?_cons, hpa] at h
    · simp only [List.find?_cons, hpa, cond_false] at h ⊢
      simp only [List.cons_append, List.find?_cons, hpa, cond_false]
      exact ih h

/-- Claim C4. `getCachedSession` never returns a record whose `expiresAt` is
at or before the current time; when every record for the account is expired
or missing, it returns `none` — the two cases give the caller the same
answer. -/
theorem C4_get_never_expired (store : List SessionRecord) (email : String)
    (now : Int) :
    (∀ r, getCachedSession store email now = some r →
      r.email = email ∧ now < r.expiresAt) ∧
    ((∀ r ∈ store, r.email = email → r.expiresAt ≤ now) →
      getCachedSession store email now = none) := by
  constructor
  · intro r h
    have hp := List.find?_some h
    simp only [Bool.and_eq_true, beq_iff_eq, decide_eq_true_eq] at hp
    exact hp
  · intro h
    apply List.find?_eq_none.mpr
    intro r hr
    simp only [Bool.and_eq_true, beq_iff_eq, decide_eq_true_eq, not_and]
    intro he
    have := h r hr he
    omega

/-- Concrete run of claim C4: a store whose only record for the account is
expired yields `none`. -/
theorem C4_get_never_expired_witness :
    getCachedSession [⟨"a@b.c", "tok", 100, 0⟩] "a@b.c" 200 = none :=
  (C4_get_never_expired [⟨"a@b.c", "tok", 100, 0⟩] "a@b.c" 200).2 (by decide)

/-- Claim C5. Starting from a store with at most one record for the account,
after `storeCachedSession` a later `getCachedSession` (at any time before the
new expiry) returns exactly the record just stored — the new token and
expiry — and no record stored for that account before the put is returned. -/
theorem C5_put_then_get (store : List SessionRecord) (email cookie : String)
    (exp now now' : Int)
    (hone : store.countP (fun r => r.email == email) ≤ 1)
    (hexp : now' < exp) :
    getCachedSession (storeCachedSession store email cookie exp now) email now'
      = some ⟨email, cookie, exp, now⟩ := by
  unfold getCachedSession storeCachedSession
  rw [find?_append_of_none]
  · simp [List.find?_cons, hexp]
  · apply List.find?_eq_none.mpr
    intro r hr
    have hfalse := eraseP_no_match (fun r => r.email == email) store hone r hr
    simp only [Bool.and_eq_true, beq_iff_eq, decide_eq_true_eq, not_and]
    intro he
    simp [he] at hfalse

/-- Concrete run of claim C5: storing over a live record for the same account
makes `get` return the new token and expiry. -/
theorem C5_put_then_get_witness :
    ([⟨"a@b.c", "old", 500, 0⟩] : List SessionRecord).countP
        (fun r => r.email == "a@b.c") ≤ 1 ∧
    (100 : Int) < 900 ∧
    getCachedSession
      (storeCachedSession [⟨"a@b.c", "old", 500, 0⟩] "a@b.c" "new" 900 50)
      "a@b.c" 100 = some ⟨"a@b.c", "new", 900, 50⟩ :=
  ⟨by decide, by decide,
    C5_put_then_get [⟨"a@b.c", "old", 500, 0⟩] "a@b.c" "new" 900 50 100
      (by decide) (by decide)⟩

theorem put_preserves_atMostOne (store : List SessionRecord)
    (email cookie : String) (exp now : Int) (h : AtMostOnePerAccount store) :
    AtMostOnePerAccount (storeCachedSession store email cookie exp now) := by
  intro e
  unfold storeCachedSession
  rw [List.countP_append]
  by_cases he : email = e
  · subst he
    have hz : (store.eraseP (fun r => r.email == email)).countP
        (fun r => r.email == email) = 0 := by
      apply List.countP_eq_zero.mpr
      intro r hr
      have := eraseP_no_match (fun r => r.email == email) store (h email) r hr
      simp [this]
    rw [hz]
    simp [List.countP_cons]
  · have hle : (store.eraseP (fun r => r.email == email)).countP
        (fun r => r.email == e) ≤ store.countP (fun r => r.email == e) := by
      exact List.Sublist.countP_le _ (List.eraseP_sublist store)
    have hnew : (([⟨email, cookie, exp, now⟩] : List SessionRecord)).countP
        (fun r => r.email == e) = 0 := by
      simp [List.countP_cons, he]
    rw [hnew]
    have := h e
    omega

/-- Claim C6. `storeCachedSession` is replace-on-write: it removes any
existing record for the account before inserting the new one, so a store
holding at most one record per account still does after any sequence of
get/put operations. -/
theorem C6_at_most_one_per_account (store : List SessionRecord)
    (ops : List CacheOp) (h : AtMostOnePerAccount store) :
    AtMostOnePerAccount (applyCacheOps store ops) := by
  induction ops generalizing store with
  | nil => exact h
  | cons op ops ih =>
    cases op with
    | read e n => exact ih store h
    | write e c x n =>
      exact ih _ (put_preserves_atMostOne store e c x n h)

/-- Concrete run of claim C6: a read then two writes to the same account
leave a single-record store. -/
theorem C6_at_most_one_per_account_witness :
    AtMostOnePerAccount ([] : List SessionRecord) ∧
    AtMostOnePerAccount (applyCacheOps []
      [CacheOp.read "a@b.c" 0, CacheOp.write "a@b.c" "t1" 10 0,
       CacheOp.write "a@b.c" "t2" 20 5]) :=
  ⟨fun _ => by simp,
   C6_at_most_one_per_account [] _ (fun _ => by simp)⟩

/-! ### Response formatter -/

/-- One entry of `ForkableResponse.lunch`: a restaurant display name and its
item names. -/
structure LunchEntry where
  restaurant : String
  items : List String
deriving DecidableEq

/-- The value `fetchLunchWithSession` resolves to: a `ForkableResponse`
(`success: true`, target date, lunch entries) or an `ErrorResponse`
(`error` message plus optional HTTP status). -/
inductive LunchResult where
  | ok (date : String) (lunch : List LunchEntry)
  | err (error : String) (status : Option Nat)
deriving DecidableEq

/-- Model of `formatLunchResponse` (src/convex/forkable.ts, lines 34-57).  An
`ErrorResponse` (no truthy `success` field) prints its `error` message.  A
success with an empty lunch list prints "No lunch ordered"; otherwise each
entry with a non-empty item list becomes `restaurant: item1, item2` (and
`null` otherwise), `.filter(Boolean)` drops the `null`s (and would drop empty
strings), and if nothing remains the text is again "No lunch ordered". -/
def formatLunchResponse : LunchResult → String
  | .err e _ => e
  | .ok _ lunch =>
    if lunch.length = 0 then "No lunch ordered"
    else
      let responses := ((lunch.map (fun item =>
          if item.items.length > 0 then
            some (item.restaurant ++ ": " ++ String.intercalate ", " item.items)
          else none)).reduceOption).filter (fun s => s != "")
      if responses.length > 0 then String.intercalate ". " responses
      else "No lunch ordered"

/-- Modelled from the spec's words (§4.5), for comparison with
`formatLunchResponse`: an error renders exactly its message; on success keep
the entries with a non-empty item list, render each as
`<restaurant>: <item1, item2, ...>` with items joined by ", ", join entries
with ". ", and render "No lunch ordered" when no entry remains. -/
def specFormat : LunchResult → String
  | .err e _ => e
  | .ok _ lunch =>
    let kept := lunch.filter (fun e => !e.items.isEmpty)
    if kept.isEmpty then "No lunch ordered"
    else String.intercalate ". "
      (kept.map (fun e => e.restaurant ++ ": " ++ String.intercalate ", " e.items))

theorem rendered_ne_empty (a b : String) : (a ++ ": " ++ b) ≠ "" := by
  intro h
  have hlen := congrArg String.length h
  rw [String.length_append, String.length_append] at hlen
  have h2 : (": " : String).length = 2 := rfl
  have h0 : ("" : String).length = 0 := rfl
  rw [h2, h0] at hlen
  omega

theorem responses_eq_kept (lunch : List LunchEntry) :
    ((lunch.map (fun item =>
        if item.items.length > 0 then
          some (item.restaurant ++ ": " ++ String.intercalate ", " item.items)
        else none)).reduceOption).filter (fun s => s != "")
    = (lunch.filter (fun e => !e.items.isEmpty)).map
        (fun e => e.restaurant ++ ": " ++ String.intercalate ", " e.items) := by
  induction lunch with
  | nil => rfl
  | cons a l ih =>
    by_cases ha : a.items = []
    · simp [ha, ih]
    · have hlen : 0 < a.items.length := List.length_pos.mpr ha
      have hne := rendered_ne_empty a.restaurant (String.intercalate ", " a.items)
      simp [hlen, ha, hne, ih]

/-- Claim C9. `formatLunchResponse` renders an error as exactly its message,
a success with no (surviving) entries as "No lunch ordered", and otherwise
each non-empty entry as `<restaurant>: <items joined by comma-space>` joined
by ". " — i.e. it agrees with the spec's rendering `specFormat` on every
result. -/
theorem C9_formatter_matches_spec (r : LunchResult) :
    formatLunchResponse r = specFormat r := by
  cases r with
  | err e s => rfl
  | ok d lunch =>
    unfold formatLunchResponse specFormat
    simp only [responses_eq_kept]
    rcases hk : lunch.filter (fun e => !e.items.isEmpty) with _ | ⟨k, ks⟩
    · rcases lunch with _ | ⟨a, l⟩
      · simp
      · simp only [List.length_cons, Nat.succ_ne_zero, if_false, hk]
        simp
    · have hlen : lunch.length ≠ 0 := by
        intro h0
        rw [List.length_eq_zero.mp h0] at hk
        simp at hk
      simp only [hlen, if_false, hk]
      simp

/-! ### Date selector -/

/-- A calendar date as produced by the `en-CA` `Intl` formatter in the
configured timezone: year, month 1-12, day 1-31. -/
structure Ymd where
  year : Int
  month : Nat
  day : Nat
deriving DecidableEq

/-- Gregorian leap-year rule, as implemented by the JS `Date` calendar. -/
def isLeapYear (y : Int) : Bool :=
  (y % 4 == 0 && y % 100 != 0) || y % 400 == 0

/-- Days in a month (1-12) of the proleptic Gregorian calendar. -/
def daysInMonth (y : Int) (m : Nat) : Nat :=
  if m = 2 then (if isLeapYear y then 29 else 28)
  else if m = 4 ∨ m = 6 ∨ m = 9 ∨ m = 11 then 30
  else 31

/-- The JS `Date(year, ...)` constructor maps a year 0-99 to 1900+year. -/
def jsDateYear (y : Int) : Int :=
  if 0 ≤ y ∧ y ≤ 99 then 1900 + y else y

/-- Day-overflow normalization performed by `new Date(year, month - 1, day)`
for month 1-12 and a day that overshoots its month by at most one carry
(here the day is at most 32). -/
def normalizeDate (y : Int) (m d : Nat) : Ymd :=
  if d ≤ daysInMonth y m then ⟨y, m, d⟩
  else if m = 12 then ⟨y + 1, 1, d - daysInMonth y m⟩
  else ⟨y, m + 1, d - daysInMonth y m⟩

/-- Two-digit zero padding used by ISO date rendering. -/
def pad2 (n : Nat) : String :=
  if n < 10 then "0" ++ toString n else toString n

/-- Four-digit zero padding used by ISO date rendering (years 0-9999). -/
def pad4 (n : Nat) : String :=
  if n < 10 then "000" ++ toString n
  else if n < 100 then "00" ++ toString n
  else if n < 1000 then "0" ++ toString n
  else toString n

/-- The date part of `Date.prototype.toISOString` (`YYYY-MM-DD`), for years
0-9999. -/
def isoDate (d : Ymd) : String :=
  pad4 d.year.toNat ++ "-" ++ pad2 d.month ++ "-" ++ pad2 d.day

/-- Model of `getDaysAhead` (src/convex/forkable.ts, lines 19-30): the local hour in
the configured timezone — the output of the `Intl` hour formatter, passed in
here as `localHour` — decides tomorrow (1) if it is 13 ("1pm") or later,
today (0) otherwise. -/
def getDaysAhead (localHour : Nat) : Nat :=
  if localHour ≥ 13 then 1 else 0

/-- Target-date computation in `getLunch` (src/convex/forkable.ts, lines
307-322): take the `en-CA`-formatted current date in the configured timezone
(`localDate`, the `Intl` oracle), build
`new Date(year, month - 1, day + daysAhead)` (JS two-digit-year rule and
day-overflow carry in the Gregorian calendar), and keep the date part of
`toISOString()`.  The Convex runtime's own clock is UTC, so `toISOString`
renders the constructed date unchanged. -/
def targetDateString (localHour : Nat) (localDate : Ymd) : String :=
  isoDate (normalizeDate (jsDateYear localDate.year) localDate.month
    (localDate.day + getDaysAhead localHour))

/-- Modelled from the spec's words (§4.1): "tomorrow" is the local calendar
date plus one day in the configured timezone's (Gregorian) calendar. -/
def specNextDay (d : Ymd) : Ymd :=
  if d.day < daysInMonth d.year d.month then ⟨d.year, d.month, d.day + 1⟩
  else if d.month = 12 then ⟨d.year + 1, 1, 1⟩
  else ⟨d.year, d.month + 1, 1⟩

/-- A date the `en-CA` formatter can actually produce: month 1-12, day within
the month. -/
def ValidYmd (d : Ymd) : Prop :=
  1 ≤ d.month ∧ d.month ≤ 12 ∧ 1 ≤ d.day ∧ d.day ≤ daysInMonth d.year d.month

instance (d : Ymd) : Decidable (ValidYmd d) := by
  unfold ValidYmd; infer_instance

theorem normalizeDate_of_le (y : Int) (m d : Nat) (h : d ≤ daysInMonth y m) :
    normalizeDate y m d = ⟨y, m, d⟩ := by
  unfold normalizeDate
  rw [if_pos h]

theorem normalizeDate_of_gt_dec (y : Int) (m d : Nat) (h : daysInMonth y m < d)
    (h12 : m = 12) :
    normalizeDate y m d = ⟨y + 1, 1, d - daysInMonth y m⟩ := by
  unfold normalizeDate
  rw [if_neg (by omega), if_pos h12]

theorem normalizeDate_of_gt (y : Int) (m d : Nat) (h : daysInMonth y m < d)
    (h12 : m ≠ 12) :
    normalizeDate y m d = ⟨y, m + 1, d - daysInMonth y m⟩ := by
  unfold normalizeDate
  rw [if_neg (by omega), if_neg h12]

/-- Claim C7. For a local hour below 13 the target date is today's local
calendar date in the configured timezone; for hour 13 or later it is the
local date plus one day, computed in that calendar (with month/year carry),
rendered as an ISO `YYYY-MM-DD` string. -/
theorem C7_date_selector (localHour : Nat) (d : Ymd) (hv : ValidYmd d)
    (hy₁ : 1000 ≤ d.year) (hy₂ : d.year ≤ 9999) :
    (localHour < 13 → targetDateString localHour d = isoDate d) ∧
    (13 ≤ localHour → targetDateString localHour d = isoDate (specNextDay d)) := by
  obtain ⟨hm1, hm2, hd1, hd2⟩ := hv
  have hjy : jsDateYear d.year = d.year := by
    unfold jsDateYear
    rw [if_neg (by omega)]
  constructor
  · intro hh
    have h0 : getDaysAhead localHour = 0 := by
      unfold getDaysAhead
      rw [if_neg (by omega)]
    unfold targetDateString
    rw [h0, hjy, Nat.add_zero, normalizeDate_of_le _ _ _ hd2]
  · intro hh
    have h1 : getDaysAhead localHour = 1 := by
      unfold getDaysAhead
      rw [if_pos (by omega)]
    unfold targetDateString
    rw [h1, hjy]
    by_cases hlt : d.day < daysInMonth d.year d.month
    · rw [normalizeDate_of_le _ _ _ (by omega)]
      unfold specNextDay
      rw [if_pos hlt]
    · have hde : d.day = daysInMonth d.year d.month := by omega
      by_cases h12 : d.month = 12
      · rw [normalizeDate_of_gt_dec _ _ _ (by omega) h12]
        unfold specNextDay
        rw [if_neg hlt, if_pos h12]
        have h1d : d.day + 1 - daysInMonth d.year d.month = 1 := by omega
        rw [h1d]
      · rw [normalizeDate_of_gt _ _ _ (by omega) h12]
        unfold specNextDay
        rw [if_neg hlt, if_neg h12]
        have h1d : d.day + 1 - daysInMonth d.year d.month = 1 := by omega
        rw [h1d]

/-- Concrete run of claim C7: at 14:00 local time on 2025-12-31 the target
date is 2026-01-01. -/
theorem C7_date_selector_witness :
    ValidYmd ⟨2025, 12, 31⟩ ∧
    targetDateString 14 ⟨2025, 12, 31⟩ = isoDate (specNextDay ⟨2025, 12, 31⟩) :=
  ⟨by decide,
   (C7_date_selector 14 ⟨2025, 12, 31⟩ (by decide) (by decide) (by decide)).2
     (by decide)⟩

/-! ### Upstream client: login and session-cookie parsing

The HTTP exchange of `loginAndGetSession` is embedded as data: the observable
parts of the login response (status, GraphQL `errorAttributes`, `set-cookie`
header) come in as a value, and JS `new Date(string)` parsing is an oracle
`parseDate` (`none` models `NaN`).  The two regular expressions of the source
are implemented over `List Char`. -/

/-- The JS regex class `\d` (the source only ever matches ASCII digits). -/
def isDigitC (c : Char) : Bool := '0' ≤ c && c ≤ '9'

/-- The JS regex class `\s`, restricted to the ASCII whitespace that can
occur in an HTTP header. -/
def isSpaceC (c : Char) : Bool :=
  c == ' ' || c == '\t' || c == '\n' || c == '\x0d' || c == '\x0b' || c == '\x0c'

/-- The JS regex class `\w`: ASCII letters, digits and underscore. -/
def isWordC (c : Char) : Bool :=
  ('a' ≤ c && c ≤ 'z') || ('A' ≤ c && c ≤ 'Z') || isDigitC c || c == '_'

/-- Literal prefix test on character lists. -/
def hasPrefixC : List Char → List Char → Bool
  | [], _ => true
  | _ :: _, [] => false
  | p :: ps, c :: cs => p == c && hasPrefixC ps cs

/-- Model of `String.prototype.indexOf` of a literal pattern: position of the first
occurrence, `none` for `-1`. -/
def indexOfLit (pat : List Char) : List Char → Option Nat
  | [] => if pat.isEmpty then some 0 else none
  | c :: cs =>
    if hasPrefixC pat (c :: cs) then some 0
    else match indexOfLit pat cs with
      | some i => some (i + 1)
      | none => none

/-- The cookie name of the upstream session cookie. -/
def easyorderLit : List Char := "_easyorder_session=".toList

/-- First match of the capture group of `/_easyorder_session=([^;]+)/`:
scan left to right for the literal followed by at least one non-`;`
character, and take the greedy run of non-`;` characters. -/
def sessionValue : List Char → Option (List Char)
  | [] => none
  | c :: cs =>
    if hasPrefixC easyorderLit (c :: cs) then
      let v := ((c :: cs).drop easyorderLit.length).takeWhile (fun ch => ch != ';')
      if v.isEmpty then sessionValue cs else some v
    else sessionValue cs

/-- Consume exactly `n` characters of class `p` (a `{n}` regex counter),
returning the rest of the input. -/
def matchExact (p : Char → Bool) : Nat → List Char → Option (List Char)
  | 0, s => some s
  | _ + 1, [] => none
  | n + 1, c :: cs => if p c then matchExact p n cs else none

/-- Consume one or more characters of class `p` (a greedy `+`; every `+` in
the date regex is followed by a character of a disjoint class, so greedy
consumption never needs to backtrack). -/
def matchPlus (p : Char → Bool) (s : List Char) : Option (List Char) :=
  match s with
  | [] => none
  | c :: cs => if p c then some (cs.dropWhile p) else none

/-- Consume one fixed character. -/
def matchLit (ch : Char) (s : List Char) : Option (List Char) :=
  match s with
  | [] => none
  | c :: cs => if c == ch then some cs else none

/-- Match `/\d{1,2}\s+\w+\s+\d{4}\s+\d{2}:\d{2}:\d{2}\s+GMT/` at the start of
`s`, returning the length of the match.  `\d{1,2}` is greedy; when three or
more digits start the input both its alternatives are followed by a digit
where `\s` is required, so the whole attempt fails. -/
def matchDateAt (s : List Char) : Option Nat := do
  let digs := s.takeWhile isDigitC
  if digs.length = 0 ∨ 2 < digs.length then none
  else
    let r1 := s.drop digs.length
    let r2 ← matchPlus isSpaceC r1
    let r3 ← matchPlus isWordC r2
    let r4 ← matchPlus isSpaceC r3
    let r5 ← matchExact isDigitC 4 r4
    let r6 ← matchPlus isSpaceC r5
    let r7 ← matchExact isDigitC 2 r6
    let r8 ← matchLit ':' r7
    let r9 ← matchExact isDigitC 2 r8
    let r10 ← matchLit ':' r9
    let r11 ← matchExact isDigitC 2 r10
    let r12 ← matchPlus isSpaceC r11
    let r13 ← matchLit 'G' r12
    let r14 ← matchLit 'M' r13
    let r15 ← matchLit 'T' r14
    pure (s.length - r15.length)

/-- Leftmost match of the date pattern: the first position at which
`matchDateAt` succeeds, returning the matched characters. -/
def findDateMatch : List Char → Option (List Char)
  | [] => none
  | c :: cs =>
    match matchDateAt (c :: cs) with
    | some n => some ((c :: cs).take n)
    | none => findDateMatch cs

/-- The session material `loginAndGetSession` resolves to on success. -/
structure LoginSession where
  cookie : String
  expiresAt : Int
deriving DecidableEq

/-- Observable parts of the upstream login response: HTTP status,
whether `data.createSession.errorAttributes` is truthy, and the
`set-cookie` header. -/
structure LoginHttp where
  status : Nat
  errorAttributes : Bool
  setCookie : Option String
deriving DecidableEq

/-- Model of `Response.ok` of the Fetch API: status in the 2xx range. -/
def httpOk (status : Nat) : Bool := 200 ≤ status && status ≤ 299

/-- Model of `loginAndGetSession` (src/convex/forkable.ts, lines 112-204).  A thrown
fetch/json error (`net = .error`) is caught and yields `null`; so do a
non-2xx status, `errorAttributes`, a missing `set-cookie` header, and a
header without the session cookie.  Otherwise the cookie is rebuilt from the
matched value, and `expiresAt` starts from the 23-hour fallback, replaced by
`parsed date - 1 hour` only when the date pattern is found after the first
occurrence of the cookie name and `new Date` parses it (`parseDate` is the
JS date-parsing oracle, `none` for `NaN`). -/
def loginAndGetSession (net : Except String LoginHttp) (now : Int)
    (parseDate : String → Option Int) : Option LoginSession :=
  match net with
  | .error _ => none
  | .ok resp =>
    if !httpOk resp.status then none
    else if resp.errorAttributes then none
    else
      match resp.setCookie with
      | none => none
      | some hdr =>
        match sessionValue hdr.toList with
        | none => none
        | some v =>
          let sessionCookie := "_easyorder_session=" ++ String.mk v
          let expiresAt :=
            match indexOfLit easyorderLit hdr.toList with
            | none => now + 23 * 60 * 60 * 1000
            | some i =>
              match findDateMatch (hdr.toList.drop i) with
              | none => now + 23 * 60 * 60 * 1000
              | some ds =>
                match parseDate (String.mk ds) with
                | none => now + 23 * 60 * 60 * 1000
                | some t => t - 60 * 60 * 1000
          some ⟨sessionCookie, expiresAt⟩

/-- Claim C8. When the login response carries the session cookie, the stored
expiry is the parsed trailing date minus 1 hour if the date pattern after
the cookie name is found and parseable, and the call time plus 23 hours if
the pattern is absent or unparseable. -/
theorem C8_login_expiry (resp : LoginHttp) (now : Int)
    (parseDate : String → Option Int) (hdr : String) (v : List Char) (i : Nat)
    (hok : httpOk resp.status = true) (herr : resp.errorAttributes = false)
    (hhdr : resp.setCookie = some hdr)
    (hv : sessionValue hdr.toList = some v)
    (hi : indexOfLit easyorderLit hdr.toList = some i) :
    (∀ ds t, findDateMatch (hdr.toList.drop i) = some ds →
        parseDate (String.mk ds) = some t →
        loginAndGetSession (.ok resp) now parseDate =
          some ⟨"_easyorder_session=" ++ String.mk v, t - 60 * 60 * 1000⟩) ∧
    (findDateMatch (hdr.toList.drop i) = none →
        loginAndGetSession (.ok resp) now parseDate =
          some ⟨"_easyorder_session=" ++ String.mk v, now + 23 * 60 * 60 * 1000⟩) ∧
    (∀ ds, findDateMatch (hdr.toList.drop i) = some ds →
        parseDate (String.mk ds) = none →
        loginAndGetSession (.ok resp) now parseDate =
          some ⟨"_easyorder_session=" ++ String.mk v, now + 23 * 60 * 60 * 1000⟩) := by
  have hv' : sessionValue hdr.data = some v := hv
  have hi' : indexOfLit easyorderLit hdr.data = some i := hi
  refine ⟨?_, ?_, ?_⟩
  · intro ds t hds ht
    have hds' : findDateMatch (List.drop i hdr.data) = some ds := hds
    unfold loginAndGetSession
    simp [hok, herr, hhdr, hv', hi', hds', ht]
  · intro hds
    have hds' : findDateMatch (List.drop i hdr.data) = none := hds
    unfold loginAndGetSession
    simp [hok, herr, hhdr, hv', hi', hds']
  · intro ds hds ht
    have hds' : findDateMatch (List.drop i hdr.data) = some ds := hds
    unfold loginAndGetSession
    simp [hok, herr, hhdr, hv', hi', hds', ht]

/-- Concrete run of claim C8: a header with a parseable trailing date yields
the parsed time minus one hour; with the date clause removed, the fallback
is `now + 23h`. -/
theorem C8_login_expiry_witness :
    loginAndGetSession
      (.ok ⟨200, false,
        some "_easyorder_session=abc123; path=/; expires=Wed, 01 Jan 2025 12:00:00 GMT"⟩)
      5000
      (fun s => if s = "01 Jan 2025 12:00:00 GMT" then some 1735732800000 else none)
      = some ⟨"_easyorder_session=abc123", 1735732800000 - 60 * 60 * 1000⟩ :=
  (C8_login_expiry
      ⟨200, false,
        some "_easyorder_session=abc123; path=/; expires=Wed, 01 Jan 2025 12:00:00 GMT"⟩
      5000
      (fun s => if s = "01 Jan 2025 12:00:00 GMT" then some 1735732800000 else none)
      "_easyorder_session=abc123; path=/; expires=Wed, 01 Jan 2025 12:00:00 GMT"
      "abc123".toList 0
      (by decide) rfl rfl (by decide) (by decide)).1
    "01 Jan 2025 12:00:00 GMT".toList 1735732800000 (by decide) (by decide)

/-! ### Upstream client: delivery query -/

/-- Substring test, modelling `String.prototype.includes`. -/
def hasSubstr (s sub : List Char) : Bool :=
  match s with
  | [] => sub.isEmpty
  | c :: cs => hasPrefixC sub (c :: cs) || hasSubstr cs sub

/-- One element of the GraphQL `errors` array: the optional `message` and
the optional `extensions.code`. -/
structure GqlError where
  message : Option String
  extCode : Option String
deriving DecidableEq

/-- The per-error authentication test of `fetchLunchWithSession` (lines
242-246): message includes "unauthenticated" or "unauthorized", or the
extension code is `UNAUTHENTICATED`. -/
def isAuthGqlError (e : GqlError) : Bool :=
  (match e.message with
   | some m =>
     hasSubstr m.toList "unauthenticated".toList ||
     hasSubstr m.toList "unauthorized".toList
   | none => false)
  || e.extCode == some "UNAUTHENTICATED"

/-- One `pieces` element of an order: its optional `name`. -/
structure Piece where
  name : Option String
deriving DecidableEq

/-- One `orders` element: the optional `venue.displayName` and the optional
`pieces` array. -/
structure Order where
  venue : Option String
  pieces : Option (List Piece)
deriving DecidableEq

/-- One `myDeliveries` element: the optional `forDeliveryAt` timestamp and
the optional `orders` array. -/
structure Delivery where
  forDeliveryAt : Option String
  orders : Option (List Order)
deriving DecidableEq

/-- Parse result of the delivery-query response body (`response.json()`):
the optional `errors` array and the optional `data.myDeliveries` array. -/
structure GqlBody where
  errors : Option (List GqlError)
  deliveries : Option (List Delivery)
deriving DecidableEq

/-- Observable parts of the delivery-query HTTP response: the status and the
`.json()` outcome (`.error` models a thrown parse exception). -/
structure FetchHttp where
  status : Nat
  body : Except String GqlBody

/-- Lunch entry built from one order (inner loop of lines 261-270): skipped
unless `pieces` is present and non-empty; the restaurant falls back to
"Unknown Restaurant" on a falsy display name; item names default to `""`
and `filter(Boolean)` then drops the empty ones. -/
def entryOfOrder (o : Order) : Option LunchEntry :=
  match o.pieces with
  | none => none
  | some ps =>
    if ps.length > 0 then
      some ⟨(match o.venue with
             | some dn => if dn = "" then "Unknown Restaurant" else dn
             | none => "Unknown Restaurant"),
            (ps.map (fun p => match p.name with
                              | some n => n
                              | none => "")).filter (fun s => s != "")⟩
    else none

/-- Outer loop of lines 257-272: keep the deliveries whose
`forDeliveryAt?.slice(0, 10)` equals the target date string (a missing
timestamp never matches) and collect their order entries. -/
def lunchEntriesOf (targetDateStr : String) (ds : List Delivery) :
    List LunchEntry :=
  (ds.map (fun d =>
    if d.forDeliveryAt.map (fun s => s.take 10) = some targetDateStr then
      (d.orders.getD []).filterMap entryOfOrder
    else [])).flatten

/-- Model of `fetchLunchWithSession` (src/convex/forkable.ts, lines 206-281), given
the network outcome for this cookie.  A thrown fetch error propagates
(`.error`; there is no catch in this function); a non-2xx status yields the
status error carrying that status; a body whose `errors` signal an
authentication failure yields `"Authentication failed"` with status 401;
otherwise the matching deliveries are collected into a success. -/
def fetchLunchWithSession (targetDateStr : String)
    (net : Except String FetchHttp) : Except String LunchResult :=
  match net with
  | .error e => .error e
  | .ok resp =>
    if !httpOk resp.status then
      .ok (.err ("Failed to fetch lunch data with status " ++ toString resp.status)
        (some resp.status))
    else
      match resp.body with
      | .error e => .error e
      | .ok body =>
        if (body.errors.getD []).any isAuthGqlError then
          .ok (.err "Authentication failed" (some 401))
        else
          .ok (.ok targetDateStr (lunchEntriesOf targetDateStr
            (body.deliveries.getD [])))

/-- The retry guard of `getLunch` (line 338):
`"error" in result && result.status === 401`. -/
def isAuth401 : LunchResult → Bool
  | .err _ st => st == some 401
  | .ok _ _ => false

/-! ### Session orchestrator -/

/-- JS truthiness of an environment string: `undefined` and `""` are falsy. -/
def envString : Option String → Option String
  | some s => if s = "" then none else some s
  | none => none

/-- A JSON error body, `JSON.stringify({ error: msg })`. -/
def jsonBody (msg : String) : String :=
  "\x7b\"error\":\"" ++ msg ++ "\"\x7d"

/-- The inbound HTTP request: its `Authorization` header. -/
structure Request where
  authorization : Option String

/-- The HTTP response returned by `getLunch`. -/
structure HttpResponse where
  status : Nat
  body : String
  contentType : String
deriving DecidableEq

/-- One upstream/store call made during a request, in order. -/
inductive Event where
  | queryCall (cookie : String)
  | loginCall (succeeded : Bool)
  | putCall (record : SessionRecord)
deriving DecidableEq

/-- All the effectful context of one `getLunch` request: environment
variables, the `Intl` timezone oracle, the session table, the clock, and the
upstream network oracles (the delivery-query response as a function of the
cookie sent, the login response, and JS date parsing). -/
structure World where
  authTokenEnv : Option String
  emailEnv : Option String
  passwordEnv : Option String
  timezoneLocalHour : Nat
  timezoneLocalDate : Ymd
  store : List SessionRecord
  now : Int
  net : String → Except String FetchHttp
  loginNet : Except String LoginHttp
  parseDate : String → Option Int

/-- Outcome of one request: the HTTP response, the calls made (in order),
and the session table afterwards. -/
structure RunResult where
  response : HttpResponse
  events : List Event
  store : List SessionRecord

/-- The login-and-retry tail of `getLunch` (lines 354-384): login (failure
is final, a 500), store the new session, and query once with the new cookie;
whatever that query returns (or throws, caught at line 385) is final. -/
def loginAndRetry (w : World) (email targetDateStr : String)
    (evs : List Event) : RunResult :=
  match loginAndGetSession w.loginNet w.now w.parseDate with
  | none =>
    ⟨⟨500, jsonBody "Failed to login", "application/json"⟩,
     evs ++ [.loginCall false], w.store⟩
  | some sd =>
    match fetchLunchWithSession targetDateStr (w.net sd.cookie) with
    | .error e =>
      ⟨⟨500, jsonBody ("Unexpected error: " ++ e), "application/json"⟩,
       evs ++ [.loginCall true, .putCall ⟨email, sd.cookie, sd.expiresAt, w.now⟩,
               .queryCall sd.cookie],
       storeCachedSession w.store email sd.cookie sd.expiresAt w.now⟩
    | .ok result =>
      ⟨⟨200, formatLunchResponse result, "text/plain"⟩,
       evs ++ [.loginCall true, .putCall ⟨email, sd.cookie, sd.expiresAt, w.now⟩,
               .queryCall sd.cookie],
       storeCachedSession w.store email sd.cookie sd.expiresAt w.now⟩

/-- Body of `getLunch` after the credential checks (lines 306-395): compute
the target date, look up the cache; on a hit query with the cached cookie —
a 401-status error falls through to login-and-retry, any other outcome is
final (a thrown error is caught at line 385 as a 500); on a miss go straight
to login-and-retry. -/
def getLunchAuthed (w : World) (email : String) : RunResult :=
  match getCachedSession w.store email w.now with
  | some cached =>
    match fetchLunchWithSession
        (targetDateString w.timezoneLocalHour w.timezoneLocalDate)
        (w.net cached.cookie) with
    | .error e =>
      ⟨⟨500, jsonBody ("Unexpected error: " ++ e), "application/json"⟩,
       [.queryCall cached.cookie], w.store⟩
    | .ok result =>
      if isAuth401 result then
        loginAndRetry w email
          (targetDateString w.timezoneLocalHour w.timezoneLocalDate)
          [.queryCall cached.cookie]
      else
        ⟨⟨200, formatLunchResponse result, "text/plain"⟩,
         [.queryCall cached.cookie], w.store⟩
  | none =>
    loginAndRetry w email
      (targetDateString w.timezoneLocalHour w.timezoneLocalDate) []

/-- Model of `getLunch` (src/convex/forkable.ts, lines 283-396): bearer authorization
against `FORKABLE_AUTH_TOKEN` (a missing or empty secret, a missing header
or a mismatch give a 401), then the credential check (500 on missing or
empty email/password), then the orchestrated lookup/query/login/retry. -/
def getLunch (w : World) (req : Request) : RunResult :=
  match envString w.authTokenEnv with
  | none => ⟨⟨401, jsonBody "Unauthorized", "application/json"⟩, [], w.store⟩
  | some expected =>
    if req.authorization ≠ some ("Bearer " ++ expected) then
      ⟨⟨401, jsonBody "Unauthorized", "application/json"⟩, [], w.store⟩
    else
      match envString w.emailEnv, envString w.passwordEnv with
      | some email, some _ => getLunchAuthed w email
      | some _, none =>
        ⟨⟨500, jsonBody "Missing credentials", "application/json"⟩, [], w.store⟩
      | none, _ =>
        ⟨⟨500, jsonBody "Missing credentials", "application/json"⟩, [], w.store⟩

/-- Recognizer for delivery-query events. -/
def isQueryEvent : Event → Bool
  | .queryCall _ => true
  | _ => false

/-- Recognizer for login events (successful or not). -/
def isLoginEvent : Event → Bool
  | .loginCall _ => true
  | _ => false

/-- Recognizer for successful-login events. -/
def isLoginSuccessEvent : Event → Bool
  | .loginCall true => true
  | _ => false

/-- Recognizer for session-store writes. -/
def isPutEvent : Event → Bool
  | .putCall _ => true
  | _ => false

theorem events_loginAndRetry (w : World) (email t : String)
    (evs : List Event) :
    (loginAndRetry w email t evs).events =
      evs ++ (match loginAndGetSession w.loginNet w.now w.parseDate with
        | none => [Event.loginCall false]
        | some sd => [Event.loginCall true,
            Event.putCall ⟨email, sd.cookie, sd.expiresAt, w.now⟩,
            Event.queryCall sd.cookie]) := by
  unfold loginAndRetry
  rcases h : loginAndGetSession w.loginNet w.now w.parseDate with _ | sd
  · simp only [h]
  · simp only [h]
    rcases hf : fetchLunchWithSession t (w.net sd.cookie) with e | r <;>
      simp only [hf]

theorem store_loginAndRetry (w : World) (email t : String)
    (evs : List Event) :
    (loginAndRetry w email t evs).store =
      match loginAndGetSession w.loginNet w.now w.parseDate with
      | none => w.store
      | some sd => storeCachedSession w.store email sd.cookie sd.expiresAt w.now := by
  unfold loginAndRetry
  rcases h : loginAndGetSession w.loginNet w.now w.parseDate with _ | sd
  · simp only [h]
  · simp only [h]
    rcases hf : fetchLunchWithSession t (w.net sd.cookie) with e | r <;>
      simp only [hf]

theorem countP_loginAndRetry (w : World) (email t : String)
    (evs : List Event) (p : Event → Bool) :
    (loginAndRetry w email t evs).events.countP p =
      evs.countP p +
        (match loginAndGetSession w.loginNet w.now w.parseDate with
          | none => [Event.loginCall false]
          | some sd => [Event.loginCall true,
              Event.putCall ⟨email, sd.cookie, sd.expiresAt, w.now⟩,
              Event.queryCall sd.cookie]).countP p := by
  rw [events_loginAndRetry, List.countP_append]

/-- Claim C1. On every control-flow path of one `getLunch` request, login is
called at most once and the delivery query at most twice: the protocol never
loops. -/
theorem C1_call_bounds (w : World) (req : Request) :
    (getLunch w req).events.countP isLoginEvent ≤ 1 ∧
    (getLunch w req).events.countP isQueryEvent ≤ 2 := by
  unfold getLunch getLunchAuthed
  repeat' split
  all_goals
    first
    | exact ⟨by simp [List.countP_cons, isLoginEvent],
             by simp [List.countP_cons, isQueryEvent]⟩
    | (constructor <;>
        (rw [countP_loginAndRetry]
         rcases loginAndGetSession w.loginNet w.now w.parseDate with _ | sd <;>
           simp [List.countP_cons, isLoginEvent, isQueryEvent]))

/-- Claim C2. When a cached session exists and the query with the cached
cookie fails with status 401, the orchestrator logs in afresh and retries
the query exactly once: the final response is built from the retry's
outcome (or is the login-failure 500 when login fails), never from the
stale Unauthenticated error — even when the retry's outcome is itself an
authentication error. -/
theorem C2_auth_failure_retry (w : World) (req : Request)
    (tk email pw : String) (cached : SessionRecord) (staleRes : LunchResult)
    (hauth : envString w.authTokenEnv = some tk)
    (hreq : req.authorization = some ("Bearer " ++ tk))
    (hemail : envString w.emailEnv = some email)
    (hpw : envString w.passwordEnv = some pw)
    (hcache : getCachedSession w.store email w.now = some cached)
    (hfetch : fetchLunchWithSession
        (targetDateString w.timezoneLocalHour w.timezoneLocalDate)
        (w.net cached.cookie) = .ok staleRes)
    (hstale : isAuth401 staleRes = true) :
    (loginAndGetSession w.loginNet w.now w.parseDate = none →
      (getLunch w req).response =
        ⟨500, jsonBody "Failed to login", "application/json"⟩) ∧
    (∀ sd r₂, loginAndGetSession w.loginNet w.now w.parseDate = some sd →
      fetchLunchWithSession
          (targetDateString w.timezoneLocalHour w.timezoneLocalDate)
          (w.net sd.cookie) = .ok r₂ →
      (getLunch w req).response = ⟨200, formatLunchResponse r₂, "text/plain"⟩ ∧
      (getLunch w req).events =
        [.queryCall cached.cookie, .loginCall true,
         .putCall ⟨email, sd.cookie, sd.expiresAt, w.now⟩,
         .queryCall sd.cookie]) := by
  have hrun : getLunch w req = loginAndRetry w email
      (targetDateString w.timezoneLocalHour w.timezoneLocalDate)
      [.queryCall cached.cookie] := by
    unfold getLunch getLunchAuthed
    simp only [hauth, hreq, hemail, hpw, hcache, hfetch, hstale, ne_eq,
      not_true_eq_false, if_false, if_true]
  constructor
  · intro hnone
    rw [hrun]
    unfold loginAndRetry
    simp only [hnone]
  · intro sd r₂ hsd hr₂
    rw [hrun]
    unfold loginAndRetry
    simp only [hsd, hr₂]
    exact ⟨trivial, rfl⟩

/-- Claim C3. When the query with the cached cookie fails with any error
other than a 401, the orchestrator does not log in: the lone query is the
only upstream call, and the response body is exactly that error's message. -/
theorem C3_non_auth_error_is_final (w : World) (req : Request)
    (tk email pw msg : String) (st : Option Nat) (cached : SessionRecord)
    (hauth : envString w.authTokenEnv = some tk)
    (hreq : req.authorization = some ("Bearer " ++ tk))
    (hemail : envString w.emailEnv = some email)
    (hpw : envString w.passwordEnv = some pw)
    (hcache : getCachedSession w.store email w.now = some cached)
    (hfetch : fetchLunchWithSession
        (targetDateString w.timezoneLocalHour w.timezoneLocalDate)
        (w.net cached.cookie) = .ok (.err msg st))
    (hst : st ≠ some 401) :
    (getLunch w req).response = ⟨200, msg, "text/plain"⟩ ∧
    (getLunch w req).events = [.queryCall cached.cookie] := by
  have h401 : isAuth401 (.err msg st) = false := by
    unfold isAuth401
    simp [hst]
  unfold getLunch getLunchAuthed
  simp only [hauth, hreq, hemail, hpw, hcache, hfetch, h401, ne_eq,
    not_true_eq_false, if_false, Bool.false_eq_true]
  exact ⟨rfl, trivial⟩

theorem c10_loginAndRetry (w : World) (email t : String) (evs : List Event)
    (hput : evs.countP isPutEvent = 0)
    (hls : evs.countP isLoginSuccessEvent = 0) :
    ((loginAndRetry w email t evs).events.countP isPutEvent =
      (loginAndRetry w email t evs).events.countP isLoginSuccessEvent) ∧
    ((loginAndRetry w email t evs).events.countP isPutEvent ≤ 1) ∧
    ((loginAndRetry w email t evs).events.countP isLoginSuccessEvent = 0 →
      (loginAndRetry w email t evs).store = w.store) := by
  simp only [countP_loginAndRetry, store_loginAndRetry, hput, hls]
  rcases loginAndGetSession w.loginNet w.now w.parseDate with _ | sd <;>
    simp [List.countP_cons, isPutEvent, isLoginSuccessEvent]

/-- Claim C10. In every request, the session store is written exactly when
login succeeds in that request, and then exactly once; on every other path
(authorization failure, missing credentials, cached attempt final, login
failure) the store is unchanged — including the stale record after a 401
cached attempt that leads to a failed login. -/
theorem C10_put_iff_login_success (w : World) (req : Request) :
    ((getLunch w req).events.countP isPutEvent =
      (getLunch w req).events.countP isLoginSuccessEvent) ∧
    ((getLunch w req).events.countP isPutEvent ≤ 1) ∧
    ((getLunch w req).events.countP isLoginSuccessEvent = 0 →
      (getLunch w req).store = w.store) := by
  unfold getLunch getLunchAuthed
  repeat' split
  all_goals
    first
    | exact ⟨by simp [List.countP_cons, isPutEvent, isLoginSuccessEvent],
             by simp [List.countP_cons, isPutEvent],
             fun _ => rfl⟩
    | exact c10_loginAndRetry w _ _ _
        (by simp [List.countP_cons, isPutEvent])
        (by simp [List.countP_cons, isLoginSuccessEvent])

/-- Concrete world for the C2 witness: a live cached session whose cookie
the upstream rejects with a 401, and a login that succeeds with a fresh
cookie the upstream then accepts. -/
def worldC2 : World where
  authTokenEnv := some "tk"
  emailEnv := some "e@x.y"
  passwordEnv := some "pw"
  timezoneLocalHour := 9
  timezoneLocalDate := ⟨2025, 6, 15⟩
  store := [⟨"e@x.y", "oldck", 1000, 0⟩]
  now := 10
  net := fun c =>
    if c = "oldck" then .ok ⟨401, .ok ⟨none, none⟩⟩
    else .ok ⟨200, .ok ⟨none, some []⟩⟩
  loginNet := .ok ⟨200, false, some "_easyorder_session=newck"⟩
  parseDate := fun _ => none

/-- Concrete run of claim C2: the stale 401 never surfaces; the retry's
empty delivery list is rendered. -/
theorem C2_auth_failure_retry_witness :
    (getLunch worldC2 ⟨some "Bearer tk"⟩).response =
      ⟨200, "No lunch ordered", "text/plain"⟩ :=
  ((C2_auth_failure_retry worldC2 ⟨some "Bearer tk"⟩ "tk" "e@x.y" "pw"
      ⟨"e@x.y", "oldck", 1000, 0⟩
      (.err "Failed to fetch lunch data with status 401" (some 401))
      (by decide) (by decide) (by decide) (by decide) (by decide) rfl
      (by decide)).2
    ⟨"_easyorder_session=newck", 82800010⟩ (.ok "2025-06-15" [])
    (by decide) rfl).1

/-- Concrete world for the C3 witness: the cached query fails with a 500. -/
def worldC3 : World where
  authTokenEnv := some "tk"
  emailEnv := some "e@x.y"
  passwordEnv := some "pw"
  timezoneLocalHour := 9
  timezoneLocalDate := ⟨2025, 6, 15⟩
  store := [⟨"e@x.y", "oldck", 1000, 0⟩]
  now := 10
  net := fun _ => .ok ⟨500, .ok ⟨none, none⟩⟩
  loginNet := .error "unreachable"
  parseDate := fun _ => none

/-- Concrete run of claim C3: a 500 from the cached query is final and its
message is the body; no login happens. -/
theorem C3_non_auth_error_is_final_witness :
    (getLunch worldC3 ⟨some "Bearer tk"⟩).response =
      ⟨200, "Failed to fetch lunch data with status 500", "text/plain"⟩ ∧
    (getLunch worldC3 ⟨some "Bearer tk"⟩).events =
      [.queryCall "oldck"] :=
  C3_non_auth_error_is_final worldC3 ⟨some "Bearer tk"⟩ "tk" "e@x.y" "pw"
    "Failed to fetch lunch data with status 500" (some 500)
    ⟨"e@x.y", "oldck", 1000, 0⟩
    (by decide) (by decide) (by decide) (by decide) (by decide) rfl
    (by decide)

/-- Concrete world for the C10 witness: no inbound secret is configured. -/
def worldC10 : World where
  authTokenEnv := none
  emailEnv := some "e@x.y"
  passwordEnv := some "pw"
  timezoneLocalHour := 9
  timezoneLocalDate := ⟨2025, 6, 15⟩
  store := [⟨"e@x.y", "oldck", 1000, 0⟩]
  now := 10
  net := fun _ => .error "unused"
  loginNet := .error "unused"
  parseDate := fun _ => none

/-- Concrete run of claim C10: a request rejected at authorization leaves
the store untouched. -/
theorem C10_put_iff_login_success_witness :
    (getLunch worldC10 ⟨none⟩).store = worldC10.store :=
  (C10_put_iff_login_success worldC10 ⟨none⟩).2.2 (by decide)

end Forkable
